import Mathlib

/-!
Verification development for the pacm-v8 C++ shim layer.

The definitions below are a shallow embedding of the C++ source:
- `shim_v8_init` models `shim_v8_initialize` (isolate.cc / part_000);
  `std::call_once` semantics are modelled explicitly: a callable that
  exits by throwing leaves the `once_flag` unset, so the next call runs
  the callable again; a callable that returns sets the flag permanently.
- `capture_exception` models `capture_exception` (util.cc).
- `shim_context_eval`, `shim_context_set_global_string`,
  `shim_context_register_host_function`, `shim_context_call_function`,
  `shim_dispose_context`, `shim_create_context` model context.cc.
- `shim_compile_script`, `shim_script_run` model script.cc.
- `shim_eval` models the legacy wrapper in util.cc.

Engine behaviour that lives behind the V8 API (whether a compile throws,
what running a unit yields, the `TryCatch` state on failure) is a
parameter (`Engine`); the shim code is a deterministic function of those
outcomes, and the model mirrors its control flow branch by branch.
Strings are modelled as Lean `String` (the shim only ever handles
NUL-free UTF-8, where `strlen` agrees with the model's length).
C out-parameters (`char** result_out` / `char** error_out`) are modelled
as `Slot := Option (Option String)`: `none` means the caller passed a
null slot pointer, `some v` a provided slot currently holding `v`.
-/

set_option autoImplicit false

namespace PacmV8

/-! Out-parameter slots -/

/-- A `char**` out-parameter: `none` = caller passed `nullptr`,
`some v` = slot provided, currently holding `v` (`none` = null string). -/
abbrev Slot := Option (Option String)

/-- The `if (slot) *slot = nullptr;` prologue every shim entry point runs. -/
def clearSlot : Slot → Slot
  | none => none
  | some _ => some none

/-- Model of `assign_error` (util.cc): writes the message only when the slot pointer
is non-null; also models `if (result_out) *result_out = ...`. -/
def assignSlot (s : Slot) (m : String) : Slot :=
  match s with
  | none => none
  | some _ => some (some m)

/-- Reads a provided, populated slot (used by `shim_eval`). -/
def slotValue (s : Slot) : String :=
  (s.getD none).getD ""

/-! Exception capture (util.cc, `capture_exception`) -/

/-- The observable state of a `v8::TryCatch` at the point the shim reads it:
whether an exception is pending, the exception value's own UTF-8 string form
(`none` models a null `*exception`), and the engine's formatted diagnostic
(`none` models an empty `Message()` or a null `*detailed`). -/
structure TryCatch where
  caught : Bool
  exceptionText : Option String
  messageText : Option String

/-- Model of `capture_exception(isolate, try_catch, message_out)`. -/
def capture_exception (isolateValid : Bool) (tc : TryCatch) : String × Bool :=
  if !isolateValid then ("unknown V8 exception", false)
  else if tc.caught then
    let base :=
      match tc.exceptionText with
      | some e => e
      | none => "unknown V8 exception"
    match tc.messageText with
    | some d => (base ++ "\n" ++ d, true)
    | none => (base, true)
  else ("V8 execution failed", false)

/-- Number of lines of a string: newline count plus one. -/
def lineCount (s : String) : Nat :=
  s.data.count '\n' + 1

/-! One-time engine bring-up (part_000, `shim_v8_initialize`) -/

/-- The process-wide `std::once_flag g_v8_once`. -/
structure OnceFlag where
  flag : Bool

/-- Result of one call to the initializer: the C return value (`1`/`0` as a
Bool), the flag state after the call, and whether the setup lambda body ran
during this call. -/
structure InitOut where
  ret : Bool
  st : OnceFlag
  bodyRan : Bool

/-- Model of `shim_v8_initialize`. `setupOk` abstracts whether the setup
body (ICU load + platform bring-up) completes without throwing for this
call's `icu_data_path`. Per `std::call_once`, a body that throws leaves the
flag unset (the exception propagates and is swallowed by `catch (...)`,
returning 0); a body that returns sets the flag, and every later call skips
the body and returns 1. -/
def shim_v8_init (st : OnceFlag) (setupOk : Bool) : InitOut :=
  if st.flag then ⟨true, st, false⟩
  else if setupOk then ⟨true, ⟨true⟩, true⟩
  else ⟨false, ⟨false⟩, true⟩

/-! JavaScript values and the global namespace

Only the structure the shim itself inspects is modelled: property maps,
the null/undefined distinction, primitive (non-object) values, and the
trampoline functions installed by `register_host_function`.  V8 functions
are objects (`Value::IsObject()` is true for them), so `hostFn` carries
its own property map for the path walk to descend into. -/

inductive JSValue where
  | undef : JSValue
  | null : JSValue
  | str : String → JSValue
  | num : Int → JSValue
  | hostFn : Nat → List (String × JSValue) → JSValue
  | obj : List (String × JSValue) → JSValue

/-- First-match association-list lookup (models `Object::Get` on own
properties / `unordered_map::find`, whose keys are unique). -/
def alookup {α : Type} : List (String × α) → String → Option α
  | [], _ => none
  | (k, v) :: rest, key => if k = key then some v else alookup rest key

/-- Association-list update-or-append (models `Object::Set`). -/
def setField {α : Type} : List (String × α) → String → α → List (String × α)
  | [], key, v => [(key, v)]
  | (k, w) :: rest, key, v =>
    if k = key then (key, v) :: rest else (k, w) :: setField rest key v

/-- Removes the entry with the given key (models `unordered_map::erase`). -/
def eraseKey {α : Type} : List (String × α) → String → List (String × α)
  | [], _ => []
  | (k, v) :: rest, key => if k = key then rest else (k, v) :: eraseKey rest key

/-- Splits a path on `'.'`, keeping empty segments, exactly like the
`find('.')` loop in `ensure_property_path` (context.cc): `""` gives `[""]`,
`"a."` gives `["a", ""]`. -/
def splitDotsAux : List Char → List Char → List String
  | [], acc => [String.mk acc.reverse]
  | c :: rest, acc =>
    if c = '.' then String.mk acc.reverse :: splitDotsAux rest [] else splitDotsAux rest (c :: acc)

def splitDots (s : String) : List String :=
  splitDotsAux s.data []

/-- Model of `ensure_property_path` (context.cc) fused with the final
`target->Set(ctx, key, value)` its callers perform.  Returns the updated
property map together with `none` on success or the error message the C++
assigns to `error_out`.  Mutations made while walking are kept even when a
later segment fails, exactly as in the C++ (intermediate objects are
assigned in place as the walk proceeds); an empty path errors with the same
message through the same fallthrough.  `Object::Get`/`Set` on plain objects
and fresh function templates cannot fail, so those engine failure branches
(`"failed to assign intermediate object on property path"`) are
unreachable here. -/
def setPathAux : List (String × JSValue) → List String → JSValue →
    List (String × JSValue) × Option String
  | g, [], _ => (g, some "property name was empty")
  | g, [k], v =>
    if k = "" then (g, some "property name was empty")
    else (setField g k v, none)
  | g, k :: seg :: rest, v =>
    if k = "" then (g, some "property path contained an empty segment")
    else
      match alookup g k with
      | none =>
        let (inner, err) := setPathAux [] (seg :: rest) v
        (setField g k (.obj inner), err)
      | some .undef =>
        let (inner, err) := setPathAux [] (seg :: rest) v
        (setField g k (.obj inner), err)
      | some .null =>
        let (inner, err) := setPathAux [] (seg :: rest) v
        (setField g k (.obj inner), err)
      | some (.obj o) =>
        let (inner, err) := setPathAux o (seg :: rest) v
        (setField g k (.obj inner), err)
      | some (.hostFn id flds) =>
        let (inner, err) := setPathAux flds (seg :: rest) v
        (setField g k (.hostFn id inner), err)
      | some _ => (g, some "property path conflicts with existing non-object value")

/-- Reads the value at a dotted path, descending through objects (and
function objects) the same way the walk does. -/
def getPath : List (String × JSValue) → List String → Option JSValue
  | _, [] => none
  | g, [k] => alookup g k
  | g, k :: seg :: rest =>
    match alookup g k with
    | some (.obj o) => getPath o (seg :: rest)
    | some (.hostFn _ flds) => getPath flds (seg :: rest)
    | _ => none

/-! Handles and engine parameters -/

/-- Model of `IsolateWrapper`: `id` is the identity of the `v8::Isolate*`,
`alive` whether that pointer is non-null. -/
structure IsolateW where
  id : Nat
  alive : Bool

/-- Model of `ContextWrapper` (shim_internal.h).  The script cache maps raw source
text to the compiled unit for that exact text; since compilation is a
function of the source here, the cache is represented by its key set. -/
structure ContextWrapper where
  isolate : Option Nat
  cache : List String
  global : List (String × JSValue)
  native_callbacks : List (String × Nat)

/-- Model of `ScriptWrapper` (shim_internal.h): owning isolate identity
(`none` once the isolate pointer is nulled), the cache key recorded at
compile time, and whether the `script` field is non-null. -/
structure ScriptWrapper where
  isolate : Option Nat
  cache_key : String
  hasUnit : Bool

/-- Engine outcomes the shim branches on, one per V8 entry point it calls.
`compile s` is the `TryCatch` state when `Script::Compile` fails (`none` =
success); `run s` is the outcome of running the unit compiled from `s`
(the unit is determined by its source text); `call id args` the outcome of
`Function::Call` on the trampoline registered under `id`. -/
structure Engine where
  compile : String → Option TryCatch
  run : String → Except TryCatch String
  call : Nat → List (Option String) → Except TryCatch String

/-- The constant `kMaxCacheableSourceLength` (context.cc). -/
def kMaxCacheableSourceLength : Nat := 64 * 1024

/-- Key-set view of `unordered_map::emplace` / `insert_or_assign`. -/
def insertKey (cache : List String) (k : String) : List String :=
  if k ∈ cache then cache else k :: cache

/-- The script cache invariant: no cached key is longer than the maximum
cacheable source length. -/
def cacheInv (c : ContextWrapper) : Prop :=
  ∀ k ∈ c.cache, k.length ≤ kMaxCacheableSourceLength

instance (c : ContextWrapper) : Decidable (cacheInv c) := by
  unfold cacheInv; infer_instance

/-! Host-notification events -/

/-- Outward-visible events of `register_host_function` / context disposal:
installing a trampoline at a path (the `target->Set` of the new function)
and notifying the host to drop a function id
(`pacm_v8__host_function_drop`). -/
inductive HostEvent where
  | installed : Nat → HostEvent
  | dropped : Nat → HostEvent
  deriving DecidableEq

/-- Event `e₁` occurs strictly before `e₂` in the event list. -/
def precedesIn (l : List HostEvent) (e₁ e₂ : HostEvent) : Prop :=
  ∃ i : Fin l.length, ∃ j : Fin l.length, i.1 < j.1 ∧ l.get i = e₁ ∧ l.get j = e₂

instance (l : List HostEvent) (e₁ e₂ : HostEvent) : Decidable (precedesIn l e₁ e₂) := by
  unfold precedesIn; infer_instance

/-! Context manager (context.cc) -/

/-- Model of `shim_create_context`. -/
def shim_create_context (iso : Option IsolateW) : Option ContextWrapper :=
  match iso with
  | none => none
  | some i =>
    if i.alive then some { isolate := some i.id, cache := [], global := [], native_callbacks := [] }
    else none

/-- Output of `shim_context_eval`: the C status, the final contents of the
two out-slots, the context after the call, and whether `Script::Compile`
ran during the call (the "compile-count hook" observable). -/
structure EvalOut where
  status : Bool
  resSlot : Slot
  errSlot : Slot
  ctx : Option ContextWrapper
  compiled : Bool

/-- Model of `shim_context_eval`.  On a cache hit, the cached unit for the
source is bound and run; on a miss the source is compiled and, when no
longer than `kMaxCacheableSourceLength`, inserted into the cache *before*
the unit is run (so the entry stays even when the run throws). -/
def shim_context_eval (eng : Engine) (h : Option ContextWrapper) (source : Option String)
    (resSlot errSlot : Slot) : EvalOut :=
  let rs := clearSlot resSlot
  let es := clearSlot errSlot
  match h with
  | none => ⟨false, rs, assignSlot es "invalid V8 context handle", h, false⟩
  | some ctx =>
    match ctx.isolate with
    | none => ⟨false, rs, assignSlot es "invalid V8 context handle", some ctx, false⟩
    | some _ =>
      match source with
      | none => ⟨false, rs, assignSlot es "source was null", some ctx, false⟩
      | some s =>
        if s ∈ ctx.cache then
          match eng.run s with
          | .error tc => ⟨false, rs, assignSlot es (capture_exception true tc).1, some ctx, false⟩
          | .ok r => ⟨true, assignSlot rs r, es, some ctx, false⟩
        else
          match eng.compile s with
          | some tc => ⟨false, rs, assignSlot es (capture_exception true tc).1, some ctx, true⟩
          | none =>
            let ctx' :=
              if s.length ≤ kMaxCacheableSourceLength then
                { ctx with cache := insertKey ctx.cache s }
              else ctx
            match eng.run s with
            | .error tc => ⟨false, rs, assignSlot es (capture_exception true tc).1, some ctx', true⟩
            | .ok r => ⟨true, assignSlot rs r, es, some ctx', true⟩

/-- Output of the status-plus-error operations on a context. -/
structure SetOut where
  status : Bool
  errSlot : Slot
  ctx : Option ContextWrapper

/-- Model of `shim_context_set_global_string`.  A null `value` is coerced
to the empty string, as in the C++ (`value ? value : ""`). -/
def shim_context_set_global_string (h : Option ContextWrapper) (name : Option String)
    (value : Option String) (errSlot : Slot) : SetOut :=
  let es := clearSlot errSlot
  match h with
  | none => ⟨false, assignSlot es "invalid V8 context handle", h⟩
  | some ctx =>
    match ctx.isolate with
    | none => ⟨false, assignSlot es "invalid V8 context handle", some ctx⟩
    | some _ =>
      match name with
      | none => ⟨false, assignSlot es "property name was null", some ctx⟩
      | some n =>
        let (g', err) := setPathAux ctx.global (splitDots n) (.str (value.getD ""))
        match err with
        | some e => ⟨false, assignSlot es e, some { ctx with global := g' }⟩
        | none => ⟨true, es, some { ctx with global := g' }⟩

/-- Output of `shim_context_register_host_function`: status, error slot,
context after the call, and the host-visible event trace of the call, in
program order. -/
structure RegOut where
  status : Bool
  errSlot : Slot
  ctx : Option ContextWrapper
  events : List HostEvent

/-- Model of `shim_context_register_host_function`.  Mirrors the source
order: the new trampoline is installed at the path (`target->Set`) first;
only then is any previously registered id at that exact path dropped and
the registry entry replaced. -/
def shim_context_register_host_function (h : Option ContextWrapper) (name : Option String)
    (fid : Nat) (errSlot : Slot) : RegOut :=
  let es := clearSlot errSlot
  match h with
  | none => ⟨false, assignSlot es "invalid V8 context handle", h, []⟩
  | some ctx =>
    match ctx.isolate with
    | none => ⟨false, assignSlot es "invalid V8 context handle", some ctx, []⟩
    | some _ =>
      match name with
      | none => ⟨false, assignSlot es "function name was null", some ctx, []⟩
      | some p =>
        let (g', err) := setPathAux ctx.global (splitDots p) (.hostFn fid [])
        match err with
        | some e => ⟨false, assignSlot es e, some { ctx with global := g' }, []⟩
        | none =>
          match alookup ctx.native_callbacks p with
          | some oldId =>
            let ctx' := { ctx with
              global := g',
              native_callbacks := (p, fid) :: eraseKey ctx.native_callbacks p }
            ⟨true, es, some ctx', [.installed fid, .dropped oldId]⟩
          | none =>
            let ctx' := { ctx with
              global := g',
              native_callbacks := (p, fid) :: ctx.native_callbacks }
            ⟨true, es, some ctx', [.installed fid]⟩

/-- Output of `shim_context_call_function`. -/
structure CallOut where
  status : Bool
  resSlot : Slot
  errSlot : Slot

/-- Model of `shim_context_call_function`.  The name is looked up as a
plain (non-dotted) property of the global object; only values that are
functions are callable, which in this model are the registered
trampolines. -/
def shim_context_call_function (eng : Engine) (h : Option ContextWrapper) (fnName : Option String)
    (args : List (Option String)) (resSlot errSlot : Slot) : CallOut :=
  let rs := clearSlot resSlot
  let es := clearSlot errSlot
  match h with
  | none => ⟨false, rs, assignSlot es "invalid V8 context handle"⟩
  | some ctx =>
    match ctx.isolate with
    | none => ⟨false, rs, assignSlot es "invalid V8 context handle"⟩
    | some _ =>
      match fnName with
      | none => ⟨false, rs, assignSlot es "function name was null"⟩
      | some fn =>
        match alookup ctx.global fn with
        | some (.hostFn id _) =>
          match eng.call id args with
          | .error tc => ⟨false, rs, assignSlot es (capture_exception true tc).1⟩
          | .ok r => ⟨true, assignSlot rs r, es⟩
        | _ => ⟨false, rs, assignSlot es "global function not found"⟩

/-- Model of `dispose_native_callbacks` (context.cc): notifies the host to
drop every registered id, in registry iteration order, then clears the
registry.  Returns the drop-event trace. -/
def dispose_native_callbacks (ctx : ContextWrapper) : ContextWrapper × List HostEvent :=
  ({ ctx with native_callbacks := [] },
   ctx.native_callbacks.map (fun e => HostEvent.dropped e.2))

/-- Model of `shim_dispose_context`: releases every cached script, drops
every still-registered callback id, releases the context handle and frees
the wrapper.  The host-visible outcome is the drop-event trace. -/
def shim_dispose_context (h : Option ContextWrapper) : List HostEvent :=
  match h with
  | none => []
  | some ctx => (dispose_native_callbacks { ctx with cache := [] }).2

/-! Script compiler (script.cc) -/

/-- Output of `shim_compile_script`. -/
structure CompileOut where
  script : Option ScriptWrapper
  errSlot : Slot

/-- Model of `shim_compile_script`: on success the wrapper records the
owning isolate and the literal source text as `cache_key`. -/
def shim_compile_script (eng : Engine) (iso : Option IsolateW) (source : Option String)
    (errSlot : Slot) : CompileOut :=
  let es := clearSlot errSlot
  match iso with
  | none => ⟨none, assignSlot es "invalid isolate handle"⟩
  | some i =>
    if !i.alive then ⟨none, assignSlot es "invalid isolate handle"⟩
    else
      match source with
      | none => ⟨none, assignSlot es "source was null"⟩
      | some s =>
        match eng.compile s with
        | some tc => ⟨none, assignSlot es (capture_exception true tc).1⟩
        | none => ⟨some ⟨some i.id, s, true⟩, es⟩

/-- Output of `shim_script_run`: status, final slot contents, the context
after the call, and whether `Script::Run` was attempted. -/
structure RunOut where
  status : Bool
  resSlot : Slot
  errSlot : Slot
  ctx : Option ContextWrapper
  ran : Bool

/-- Model of `shim_script_run`.  Validates the script handle, then the
context handle, then rejects cross-isolate binding before any bind or run;
on a successful run the unit is inserted into the context's cache under
its original key whenever that key is non-empty — with no length check. -/
def shim_script_run (eng : Engine) (sh : Option ScriptWrapper) (ch : Option ContextWrapper)
    (resSlot errSlot : Slot) : RunOut :=
  let rs := clearSlot resSlot
  let es := clearSlot errSlot
  match sh with
  | none => ⟨false, rs, assignSlot es "invalid V8 script handle", ch, false⟩
  | some sw =>
    if !sw.hasUnit then ⟨false, rs, assignSlot es "invalid V8 script handle", ch, false⟩
    else
      match ch with
      | none => ⟨false, rs, assignSlot es "invalid V8 context handle", ch, false⟩
      | some ctx =>
        match ctx.isolate with
        | none => ⟨false, rs, assignSlot es "invalid V8 context handle", some ctx, false⟩
        | some i =>
          if sw.isolate ≠ some i then
            ⟨false, rs, assignSlot es "script and context belong to different isolates",
              some ctx, false⟩
          else
            match eng.run sw.cache_key with
            | .error tc =>
              ⟨false, rs, assignSlot es (capture_exception true tc).1, some ctx, true⟩
            | .ok r =>
              let ctx' :=
                if sw.cache_key = "" then ctx
                else { ctx with cache := insertKey ctx.cache sw.cache_key }
              ⟨true, assignSlot rs r, es, some ctx', true⟩

/-! Legacy wrapper (util.cc) -/

/-- Model of `shim_eval`: calls `shim_context_eval` with both slots
provided and returns the result string on success, the error string on
failure (paired here with the context after the call). -/
def shim_eval (eng : Engine) (h : Option ContextWrapper) (source : Option String) :
    String × Option ContextWrapper :=
  let o := shim_context_eval eng h source (some none) (some none)
  if o.status then (slotValue o.resSlot, o.ctx) else (slotValue o.errSlot, o.ctx)

/-! Concrete instances used in the theorems below -/

/-- A benign engine: every source compiles, running a unit echoes its
source, every host call returns the empty string. -/
def eng0 : Engine :=
  { compile := fun _ => none, run := fun s => .ok s, call := fun _ _ => .ok "" }

/-- A freshly created context on isolate `0`. -/
def c0demo : ContextWrapper :=
  { isolate := some 0, cache := [], global := [], native_callbacks := [] }

/-- A source one byte longer than the maximum cacheable length. -/
def longSrc : String := String.mk (List.replicate (kMaxCacheableSourceLength + 1) 'a')

/-- A context that registered the same host id `7` under two distinct
paths (both registrations succeed). -/
def c5ctx : Option ContextWrapper :=
  (shim_context_register_host_function
    ((shim_context_register_host_function (some c0demo) (some "a") 7 none).ctx)
    (some "b") 7 none).ctx

/-- A context with one native callback registered at path `f` under id
`1` (the state after `shim_context_register_host_function(ctx, "f", 1)`
on a fresh context). -/
def c3c1 : ContextWrapper :=
  { isolate := some 0, cache := [], global := [("f", .hostFn 1 [])],
    native_callbacks := [("f", 1)] }

/-- The register call that re-registers path `f` under id `2`. -/
def c3out : RegOut :=
  shim_context_register_host_function (some c3c1) (some "f") 2 none

/-- The slot `after` was written with some message through `assignSlot`
after being cleared: it holds a string exactly when the caller provided
the slot. -/
def IsAssigned (before after : Slot) : Prop :=
  ∃ m, after = assignSlot (clearSlot before) m

/-! Association-list and path lemmas -/

@[simp]
theorem isAssigned_assignSlot (b : Slot) (m : String) :
    IsAssigned b (assignSlot (clearSlot b) m) := ⟨m, rfl⟩

theorem alookup_setField_self {α : Type} (g : List (String × α)) (k : String) (v : α) :
    alookup (setField g k v) k = some v := by
  induction g with
  | nil => simp [setField, alookup]
  | cons e rest ih =>
    obtain ⟨k', w⟩ := e
    by_cases hk : k' = k
    · simp [setField, hk, alookup]
    · simp [setField, hk, alookup, ih]

theorem setField_eq_of_alookup {α : Type} (g : List (String × α)) (k : String) (v : α)
    (h : alookup g k = some v) : setField g k v = g := by
  induction g with
  | nil => simp [alookup] at h
  | cons e rest ih =>
    obtain ⟨k', w⟩ := e
    by_cases hk : k' = k
    · subst hk
      simp [alookup] at h
      simp [setField, h]
    · simp [alookup, hk] at h
      simp [setField, hk, ih h]

theorem mem_insertKey_self (c : List String) (k : String) : k ∈ insertKey c k := by
  unfold insertKey
  by_cases h : k ∈ c <;> simp [h]

theorem mem_insertKey (c : List String) (k x : String) (h : x ∈ insertKey c k) :
    x = k ∨ x ∈ c := by
  unfold insertKey at h
  by_cases hk : k ∈ c
  · simp [hk] at h
    exact Or.inr h
  · simp [hk] at h
    exact h

theorem getPath_setPathAux :
    ∀ (segs : List String) (g : List (String × JSValue)) (v : JSValue)
      (g' : List (String × JSValue)),
      setPathAux g segs v = (g', none) → getPath g' segs = some v := by
  intro segs
  induction segs with
  | nil => intro g v g' h; simp [setPathAux] at h
  | cons k rest ih =>
    intro g v g' h
    cases rest with
    | nil =>
      by_cases hk : k = ""
      · simp [setPathAux, hk] at h
      · simp [setPathAux, hk] at h
        simp [getPath, ← h, alookup_setField_self]
    | cons seg rest' =>
      by_cases hk : k = ""
      · simp [setPathAux, hk] at h
      · cases hl : alookup g k with
        | none =>
          rcases hE : setPathAux [] (seg :: rest') v with ⟨inner, err⟩
          simp [setPathAux, hk, hl, hE] at h
          obtain ⟨hg, herr⟩ := h
          subst herr
          simp [getPath, ← hg, alookup_setField_self, ih _ v inner hE]
        | some w =>
          cases w with
          | undef =>
            rcases hE : setPathAux [] (seg :: rest') v with ⟨inner, err⟩
            simp [setPathAux, hk, hl, hE] at h
            obtain ⟨hg, herr⟩ := h
            subst herr
            simp [getPath, ← hg, alookup_setField_self, ih _ v inner hE]
          | null =>
            rcases hE : setPathAux [] (seg :: rest') v with ⟨inner, err⟩
            simp [setPathAux, hk, hl, hE] at h
            obtain ⟨hg, herr⟩ := h
            subst herr
            simp [getPath, ← hg, alookup_setField_self, ih _ v inner hE]
          | obj o =>
            rcases hE : setPathAux o (seg :: rest') v with ⟨inner, err⟩
            simp [setPathAux, hk, hl, hE] at h
            obtain ⟨hg, herr⟩ := h
            subst herr
            simp [getPath, ← hg, alookup_setField_self, ih _ v inner hE]
          | hostFn id flds =>
            rcases hE : setPathAux flds (seg :: rest') v with ⟨inner, err⟩
            simp [setPathAux, hk, hl, hE] at h
            obtain ⟨hg, herr⟩ := h
            subst herr
            simp [getPath, ← hg, alookup_setField_self, ih _ v inner hE]
          | str s => simp [setPathAux, hk, hl] at h
          | num n => simp [setPathAux, hk, hl] at h

theorem count_map_dropped (l : List (String × Nat)) (id : Nat) :
    (l.map (fun e => HostEvent.dropped e.2)).count (HostEvent.dropped id)
      = l.countP (fun e => e.2 == id) := by
  induction l with
  | nil => simp
  | cons e rest ih =>
    by_cases h : e.2 = id
    · simp [List.count_cons, List.countP_cons, h, ih]
    · simp [List.count_cons, List.countP_cons, h, ih]

/-! Out-parameter discipline of the fallible operations -/

theorem eval_slots (eng : Engine) (h : Option ContextWrapper) (src : Option String)
    (rs es : Slot) :
    ((shim_context_eval eng h src rs es).status = false →
       (shim_context_eval eng h src rs es).resSlot = clearSlot rs ∧
       IsAssigned es (shim_context_eval eng h src rs es).errSlot) ∧
    ((shim_context_eval eng h src rs es).status = true →
       (shim_context_eval eng h src rs es).errSlot = clearSlot es ∧
       IsAssigned rs (shim_context_eval eng h src rs es).resSlot) := by
  unfold shim_context_eval
  rcases h with _ | ctx
  · simp
  · rcases hiso : ctx.isolate with _ | i
    · simp [hiso]
    · rcases src with _ | s
      · simp [hiso]
      · by_cases hc : s ∈ ctx.cache
        · rcases hrun : eng.run s with tc | r <;> simp [hiso, hc, hrun]
        · rcases hcomp : eng.compile s with _ | tc
          · rcases hrun : eng.run s with tc | r <;> simp [hiso, hc, hcomp, hrun]
          · simp [hiso, hc, hcomp]

theorem run_slots (eng : Engine) (sh : Option ScriptWrapper) (ch : Option ContextWrapper)
    (rs es : Slot) :
    ((shim_script_run eng sh ch rs es).status = false →
       (shim_script_run eng sh ch rs es).resSlot = clearSlot rs ∧
       IsAssigned es (shim_script_run eng sh ch rs es).errSlot) ∧
    ((shim_script_run eng sh ch rs es).status = true →
       (shim_script_run eng sh ch rs es).errSlot = clearSlot es ∧
       IsAssigned rs (shim_script_run eng sh ch rs es).resSlot) := by
  unfold shim_script_run
  rcases sh with _ | sw
  · simp
  · by_cases hu : sw.hasUnit
    · rcases ch with _ | ctx
      · simp [hu]
      · rcases hiso : ctx.isolate with _ | i
        · simp [hu, hiso]
        · by_cases hx : sw.isolate = some i
          · rcases hrun : eng.run sw.cache_key with tc | r <;>
              simp [hu, hiso, hx, hrun]
          · simp [hu, hiso, hx]
    · simp [hu]

theorem call_slots (eng : Engine) (h : Option ContextWrapper) (fn : Option String)
    (args : List (Option String)) (rs es : Slot) :
    ((shim_context_call_function eng h fn args rs es).status = false →
       (shim_context_call_function eng h fn args rs es).resSlot = clearSlot rs ∧
       IsAssigned es (shim_context_call_function eng h fn args rs es).errSlot) ∧
    ((shim_context_call_function eng h fn args rs es).status = true →
       (shim_context_call_function eng h fn args rs es).errSlot = clearSlot es ∧
       IsAssigned rs (shim_context_call_function eng h fn args rs es).resSlot) := by
  unfold shim_context_call_function
  rcases h with _ | ctx
  · simp
  · rcases hiso : ctx.isolate with _ | i
    · simp [hiso]
    · rcases fn with _ | f
      · simp [hiso]
      · rcases hl : alookup ctx.global f with _ | w
        · simp [hiso, hl]
        · cases w <;> try simp [hiso, hl]
          case hostFn id flds =>
            rcases hcall : eng.call id args with tc | r <;> simp [hiso, hl, hcall]

theorem compile_slots (eng : Engine) (iso : Option IsolateW) (src : Option String) (es : Slot) :
    ((shim_compile_script eng iso src es).script = none →
       IsAssigned es (shim_compile_script eng iso src es).errSlot) ∧
    (∀ sw, (shim_compile_script eng iso src es).script = some sw →
       (shim_compile_script eng iso src es).errSlot = clearSlot es) := by
  unfold shim_compile_script
  rcases iso with _ | i
  · simp
  · by_cases ha : i.alive
    · rcases src with _ | s
      · simp [ha]
      · rcases hcomp : eng.compile s with _ | tc <;> simp [ha, hcomp]
    · simp [ha]

/-! Claim C1: one-time initialization -/

/-- C1: the claim states that once any call to the initializer has
returned, no later call re-executes the setup body — in particular that a
failed first attempt is never retried.  False: `std::call_once` leaves the
flag unset when the callable throws, so after a first call that returned
failure the next call runs the setup body again (and can succeed). -/
theorem c1_counterexample :
    (shim_v8_init ⟨false⟩ false).ret = false ∧
    (shim_v8_init (shim_v8_init ⟨false⟩ false).st true).bodyRan = true ∧
    (shim_v8_init (shim_v8_init ⟨false⟩ false).st true).ret = true := by decide

/-- C1 (amended): the setup body runs at most once per *successful*
bring-up — after a call that returned success, every later call returns
success without re-executing the body; a call that returned failure leaves
the once-flag unset, so the next call re-executes the setup body and
returns that attempt's own outcome. -/
theorem c1_amended (st : OnceFlag) (b b' : Bool) :
    ((shim_v8_init st b).ret = true →
       (shim_v8_init (shim_v8_init st b).st b').ret = true ∧
       (shim_v8_init (shim_v8_init st b).st b').bodyRan = false) ∧
    (st.flag = false → b = false →
       (shim_v8_init st b).ret = false ∧
       (shim_v8_init st b).st.flag = false ∧
       (shim_v8_init (shim_v8_init st b).st b').bodyRan = true ∧
       (shim_v8_init (shim_v8_init st b).st b').ret = b') := by
  obtain ⟨f⟩ := st
  cases f <;> cases b <;> cases b' <;> simp [shim_v8_init]

/-- Witness for `c1_amended` at a concrete successful first call. -/
theorem c1_amended_witness :
    (shim_v8_init (shim_v8_init ⟨false⟩ true).st true).ret = true ∧
    (shim_v8_init (shim_v8_init ⟨false⟩ true).st true).bodyRan = false :=
  (c1_amended ⟨false⟩ true true).1 (by decide)

/-! Claim C2: the script-cache length invariant -/

/-- Shape of the context coming out of `shim_context_eval`: either
untouched, or with the evaluated source inserted — and in the latter case
the source passed the length check. -/
theorem eval_ctx_shape (eng : Engine) (c : ContextWrapper) (src : Option String)
    (rs es : Slot) :
    (shim_context_eval eng (some c) src rs es).ctx = some c ∨
    (∃ s : String, src = some s ∧ s.length ≤ kMaxCacheableSourceLength ∧
       (shim_context_eval eng (some c) src rs es).ctx
         = some { c with cache := insertKey c.cache s }) := by
  unfold shim_context_eval
  rcases hiso : c.isolate with _ | i
  · simp [hiso]
  · rcases src with _ | s
    · simp [hiso]
    · by_cases hc : s ∈ c.cache
      · rcases hrun : eng.run s with tc | r <;> simp [hiso, hc, hrun]
      · rcases hcomp : eng.compile s with _ | tc
        · by_cases hlen : s.length ≤ kMaxCacheableSourceLength
          · rcases hrun : eng.run s with tc | r <;> right <;>
              exact ⟨s, rfl, hlen, by simp [hiso, hc, hcomp, hrun, hlen]⟩
          · rcases hrun : eng.run s with tc | r <;> simp [hiso, hc, hcomp, hrun, hlen]
        · simp [hiso, hc, hcomp]

/-- Shape of the context coming out of `shim_script_run`: either untouched,
or with the script's `cache_key` inserted — with no length condition. -/
theorem run_ctx_shape (eng : Engine) (sw : ScriptWrapper) (c : ContextWrapper)
    (rs es : Slot) :
    (shim_script_run eng (some sw) (some c) rs es).ctx = some c ∨
    (shim_script_run eng (some sw) (some c) rs es).ctx
      = some { c with cache := insertKey c.cache sw.cache_key } := by
  unfold shim_script_run
  by_cases hu : sw.hasUnit
  · rcases hiso : c.isolate with _ | i
    · simp [hu, hiso]
    · by_cases hx : sw.isolate = some i
      · rcases hrun : eng.run sw.cache_key with tc | r
        · simp [hu, hiso, hx, hrun]
        · by_cases hk : sw.cache_key = ""
          · rw [hk] at hrun
            simp [hu, hiso, hx, hrun, hk]
          · simp [hu, hiso, hx, hrun, hk]
      · simp [hu, hiso, hx]
  · simp [hu]

theorem cacheInv_insert (c : ContextWrapper) (s : String) (hinv : cacheInv c)
    (hs : s.length ≤ kMaxCacheableSourceLength) :
    cacheInv { c with cache := insertKey c.cache s } := by
  intro k hk
  rcases mem_insertKey _ _ _ hk with h | h
  · exact h ▸ hs
  · exact hinv k h

/-- C2 (counterexample): the claim states that *every* cache-inserting
operation preserves the "no key longer than 64*1024" invariant.  False for
`shim_script_run`: it inserts the script's original source key with no
length check, so compiling a source of length 64*1024+1 and running it
against a fresh context leaves the cache holding an over-long key. -/
theorem c2_counterexample :
    cacheInv c0demo ∧
    (shim_script_run eng0
        (shim_compile_script eng0 (some ⟨0, true⟩) (some longSrc) none).script
        (some c0demo) none none).status = true ∧
    ∃ c', (shim_script_run eng0
        (shim_compile_script eng0 (some ⟨0, true⟩) (some longSrc) none).script
        (some c0demo) none none).ctx = some c' ∧ ¬ cacheInv c' := by
  refine ⟨by decide, rfl, { c0demo with cache := [longSrc] }, rfl, ?_⟩
  intro h
  have hx := h longSrc (by simp)
  have hlen : longSrc.length = kMaxCacheableSourceLength + 1 := by
    simp [longSrc, String.length]
  omega

/-- C2 (amended): `eval` preserves the invariant — it inserts only sources
whose length passed the `kMaxCacheableSourceLength` check; `run_script`
inserts the script's original key with no length check, so it preserves the
invariant only when that key is itself within the bound. -/
theorem c2_amended (eng : Engine) :
    (∀ (c : ContextWrapper) (src : Option String) (rs es : Slot) (c' : ContextWrapper),
       cacheInv c → (shim_context_eval eng (some c) src rs es).ctx = some c' →
       cacheInv c') ∧
    (∀ (sw : ScriptWrapper) (c : ContextWrapper) (rs es : Slot) (c' : ContextWrapper),
       cacheInv c → sw.cache_key.length ≤ kMaxCacheableSourceLength →
       (shim_script_run eng (some sw) (some c) rs es).ctx = some c' →
       cacheInv c') := by
  constructor
  · intro c src rs es c' hinv hctx
    rcases eval_ctx_shape eng c src rs es with h | ⟨s, _, hlen, h⟩
    · rw [h] at hctx
      exact (Option.some_injective _ hctx) ▸ hinv
    · rw [h] at hctx
      exact (Option.some_injective _ hctx) ▸ cacheInv_insert c s hinv hlen
  · intro sw c rs es c' hinv hlen hctx
    rcases run_ctx_shape eng sw c rs es with h | h
    · rw [h] at hctx
      exact (Option.some_injective _ hctx) ▸ hinv
    · rw [h] at hctx
      exact (Option.some_injective _ hctx) ▸ cacheInv_insert c sw.cache_key hinv hlen

/-- Witness for `c2_amended` on a concrete short source. -/
theorem c2_amended_witness :
    cacheInv { c0demo with cache := insertKey c0demo.cache "x" } :=
  (c2_amended eng0).1 c0demo (some "x") none none
    { c0demo with cache := insertKey c0demo.cache "x" } (by decide) rfl

/-! Claim C3: re-registration order of drop and install -/

/-- C3 (counterexample): the claim states that on re-registration the drop
of the old id happens *before* the new trampoline is installed at the path.
False: the source installs the new trampoline (`target->Set`) first and
only then drops the old id.  `c3c1` is reachable — it is exactly the state
after registering id 1 at `f` on a fresh context. -/
theorem c3_counterexample :
    (shim_context_register_host_function (some c0demo) (some "f") 1 none).ctx = some c3c1 ∧
    c3out.events = [.installed 2, .dropped 1] ∧
    ¬ precedesIn c3out.events (.dropped 1) (.installed 2) :=
  ⟨rfl, by decide, by decide⟩

/-- C3 (amended): a successful re-registration at a path that already holds
a callback drops the old id exactly once, *after* the new trampoline has
been installed at the path (and before the registry entry is replaced);
after the call the registry maps the path to the new id and the path holds
the new trampoline, so invoking it calls only the new id. -/
theorem c3_amended (ctx : ContextWrapper) (p : String) (idOld idNew : Nat) (es : Slot)
    (hreg : alookup ctx.native_callbacks p = some idOld)
    (hok : (shim_context_register_host_function (some ctx) (some p) idNew es).status = true) :
    (shim_context_register_host_function (some ctx) (some p) idNew es).events
      = [.installed idNew, .dropped idOld] ∧
    ((shim_context_register_host_function (some ctx) (some p) idNew es).events.count
      (.dropped idOld)) = 1 ∧
    ∃ c', (shim_context_register_host_function (some ctx) (some p) idNew es).ctx = some c' ∧
      alookup c'.native_callbacks p = some idNew ∧
      getPath c'.global (splitDots p) = some (.hostFn idNew []) := by
  revert hok
  unfold shim_context_register_host_function
  rcases hiso : ctx.isolate with _ | i
  · simp [hiso]
  · rcases hE : setPathAux ctx.global (splitDots p) (.hostFn idNew []) with ⟨g', err⟩
    rcases err with _ | e
    · intro _
      refine ⟨by simp [hiso, hE, hreg], by simp [hiso, hE, hreg, List.count_cons], ?_⟩
      let c' : ContextWrapper := { ctx with
        global := g',
        native_callbacks := (p, idNew) :: eraseKey ctx.native_callbacks p }
      refine ⟨c', by simp [c', hiso, hE, hreg], by simp [c', alookup], ?_⟩
      exact getPath_setPathAux _ _ _ _ hE
    · simp [hiso, hE]

/-- Witness for `c3_amended` at the concrete re-registration of `f`. -/
theorem c3_amended_witness :
    (shim_context_register_host_function (some c3c1) (some "f") 2 none).events
      = [.installed 2, .dropped 1] ∧
    ((shim_context_register_host_function (some c3c1) (some "f") 2 none).events.count
      (.dropped 1)) = 1 ∧
    ∃ c', (shim_context_register_host_function (some c3c1) (some "f") 2 none).ctx = some c' ∧
      alookup c'.native_callbacks "f" = some 2 ∧
      getPath c'.global (splitDots "f") = some (.hostFn 2 []) :=
  c3_amended c3c1 "f" 1 2 none (by decide) (by decide)

/-! Claim C4: eval compiles identical cacheable sources once -/

/-- C4: for a source within the cacheable length whose compilation
succeeds, evaluating it twice on the same context compiles it only once:
the first call compiles and inserts the unit under the exact source key,
the second call hits the cache, binds the cached unit and runs it without
recompiling, with identical status, result and error, and without touching
the context again. -/
theorem c4_eval_compiles_once (eng : Engine) (ctx : ContextWrapper) (s : String) (i : Nat)
    (hi : ctx.isolate = some i) (hmiss : s ∉ ctx.cache)
    (hlen : s.length ≤ kMaxCacheableSourceLength) (hcomp : eng.compile s = none) :
    (shim_context_eval eng (some ctx) (some s) (some none) (some none)).compiled = true ∧
    ∃ c1, (shim_context_eval eng (some ctx) (some s) (some none) (some none)).ctx = some c1 ∧
      s ∈ c1.cache ∧
      (shim_context_eval eng (some c1) (some s) (some none) (some none)).compiled = false ∧
      (shim_context_eval eng (some c1) (some s) (some none) (some none)).status
        = (shim_context_eval eng (some ctx) (some s) (some none) (some none)).status ∧
      (shim_context_eval eng (some c1) (some s) (some none) (some none)).resSlot
        = (shim_context_eval eng (some ctx) (some s) (some none) (some none)).resSlot ∧
      (shim_context_eval eng (some c1) (some s) (some none) (some none)).errSlot
        = (shim_context_eval eng (some ctx) (some s) (some none) (some none)).errSlot ∧
      (shim_context_eval eng (some c1) (some s) (some none) (some none)).ctx = some c1 := by
  have hmem : s ∈ insertKey ctx.cache s := mem_insertKey_self _ _
  rcases hrun : eng.run s with tc | r
  · refine ⟨?_, { ctx with cache := insertKey ctx.cache s }, ?_, hmem, ?_, ?_, ?_, ?_, ?_⟩ <;>
      simp [shim_context_eval, hi, hmiss, hcomp, hlen, hrun, hmem]
  · refine ⟨?_, { ctx with cache := insertKey ctx.cache s }, ?_, hmem, ?_, ?_, ?_, ?_, ?_⟩ <;>
      simp [shim_context_eval, hi, hmiss, hcomp, hlen, hrun, hmem]

/-- Witness for `c4_eval_compiles_once` on a fresh context and a one-byte
source. -/
theorem c4_witness :
    (shim_context_eval eng0 (some c0demo) (some "x") (some none) (some none)).compiled = true ∧
    ∃ c1, (shim_context_eval eng0 (some c0demo) (some "x") (some none) (some none)).ctx
        = some c1 ∧
      "x" ∈ c1.cache ∧
      (shim_context_eval eng0 (some c1) (some "x") (some none) (some none)).compiled = false ∧
      (shim_context_eval eng0 (some c1) (some "x") (some none) (some none)).status
        = (shim_context_eval eng0 (some c0demo) (some "x") (some none) (some none)).status ∧
      (shim_context_eval eng0 (some c1) (some "x") (some none) (some none)).resSlot
        = (shim_context_eval eng0 (some c0demo) (some "x") (some none) (some none)).resSlot ∧
      (shim_context_eval eng0 (some c1) (some "x") (some none) (some none)).errSlot
        = (shim_context_eval eng0 (some c0demo) (some "x") (some none) (some none)).errSlot ∧
      (shim_context_eval eng0 (some c1) (some "x") (some none) (some none)).ctx = some c1 :=
  c4_eval_compiles_once eng0 c0demo "x" 0 rfl (by decide) (by decide) rfl

/-! Claim C5: drop notifications on context disposal -/

theorem countP_snd (l : List (String × Nat)) (id : Nat) :
    l.countP (fun e => e.2 == id) = (l.map Prod.snd).count id := by
  induction l with
  | nil => simp
  | cons e rest ih =>
    by_cases h : e.2 = id <;> simp [List.countP_cons, List.count_cons, h, ih]

/-- C5 (counterexample): the claim states the ids dropped on disposal are
pairwise distinct and that no id is ever dropped twice.  False: the
registry is keyed by path, and registering the same id under two paths is
accepted; disposing such a context (reachable below by two successful
registrations on a fresh context) drops that id twice. -/
theorem c5_counterexample :
    (∃ c, c5ctx = some c ∧ c.native_callbacks.length = 2) ∧
    shim_dispose_context c5ctx = [.dropped 7, .dropped 7] ∧
    (shim_dispose_context c5ctx).count (.dropped 7) = 2 ∧
    ¬ (shim_dispose_context c5ctx).Nodup :=
  ⟨⟨_, rfl, rfl⟩, by decide, by decide, by decide⟩

/-- C5 (amended): disposing a context notifies the host once per registry
entry — exactly N drops for N registered callbacks, and the number of
drops of any id equals the number of paths registered to it; when the
registered ids are pairwise distinct, every still-registered id is dropped
exactly once. -/
theorem c5_amended (ctx : ContextWrapper) :
    (shim_dispose_context (some ctx)).length = ctx.native_callbacks.length ∧
    (∀ id : Nat, (shim_dispose_context (some ctx)).count (.dropped id)
      = ctx.native_callbacks.countP (fun e => e.2 == id)) ∧
    ((ctx.native_callbacks.map Prod.snd).Nodup →
      ∀ id ∈ ctx.native_callbacks.map Prod.snd,
        (shim_dispose_context (some ctx)).count (.dropped id) = 1) := by
  refine ⟨by simp [shim_dispose_context, dispose_native_callbacks],
    fun id => ?_, fun hnd id hid => ?_⟩
  · exact count_map_dropped _ _
  · have h1 : (shim_dispose_context (some ctx)).count (.dropped id)
        = ctx.native_callbacks.countP (fun e => e.2 == id) := count_map_dropped _ _
    rw [h1, countP_snd]
    exact List.count_eq_one_of_mem hnd hid

/-- Witness for `c5_amended` on a context with one registered callback. -/
theorem c5_amended_witness :
    (shim_dispose_context (some ⟨some 0, [], [], [("a", 7)]⟩)).count (.dropped 7) = 1 :=
  (c5_amended ⟨some 0, [], [], [("a", 7)]⟩).2.2 (by decide) 7 (by decide)

/-! Claim C6: dotted-path set_global -/

/-- C6: `set_global` with path `a.b.c` on an empty global namespace
creates intermediate objects at `a` and `a.b` and sets `a.b.c` to the
value; with `a.b` already holding a non-object value it fails with the
property-path-conflict error (the PropertyPathError of the spec's
taxonomy) and leaves the global namespace unmodified. -/
theorem c6_set_global (v : String) :
    ((shim_context_set_global_string (some c0demo) (some "a.b.c") (some v)
        (some none)).status = true ∧
     (shim_context_set_global_string (some c0demo) (some "a.b.c") (some v)
        (some none)).ctx
       = some { c0demo with global := [("a", .obj [("b", .obj [("c", .str v)])])] }) ∧
    (∀ (ctx : ContextWrapper) (i : Nat) (gA : List (String × JSValue)) (w : JSValue),
      ctx.isolate = some i →
      alookup ctx.global "a" = some (.obj gA) →
      alookup gA "b" = some w →
      w ≠ .undef → w ≠ .null → (∀ o, w ≠ .obj o) → (∀ id f, w ≠ .hostFn id f) →
      (shim_context_set_global_string (some ctx) (some "a.b.c") (some v)
          (some none)).status = false ∧
      (shim_context_set_global_string (some ctx) (some "a.b.c") (some v)
          (some none)).errSlot
        = some (some "property path conflicts with existing non-object value") ∧
      (shim_context_set_global_string (some ctx) (some "a.b.c") (some v)
          (some none)).ctx = some ctx) := by
  constructor
  · exact ⟨rfl, rfl⟩
  · intro ctx i gA w hiso ha hb h1 h2 h3 h4
    have hsplit : splitDots "a.b.c" = ["a", "b", "c"] := by decide
    cases w with
    | undef => exact absurd rfl h1
    | null => exact absurd rfl h2
    | obj o => exact absurd rfl (h3 o)
    | hostFn id f => exact absurd rfl (h4 id f)
    | str t =>
      have hpath : setPathAux ctx.global ["a", "b", "c"] (.str v)
          = (ctx.global, some "property path conflicts with existing non-object value") := by
        simp [setPathAux, ha, hb, setField_eq_of_alookup ctx.global "a" (.obj gA) ha]
      refine ⟨?_, ?_, ?_⟩
      · simp [shim_context_set_global_string, hiso, hsplit, hpath]
      · simp [shim_context_set_global_string, hiso, hsplit, hpath, assignSlot, clearSlot]
      · simp [shim_context_set_global_string, hiso, hsplit, hpath]
        rw [← hiso]
    | num n =>
      have hpath : setPathAux ctx.global ["a", "b", "c"] (.str v)
          = (ctx.global, some "property path conflicts with existing non-object value") := by
        simp [setPathAux, ha, hb, setField_eq_of_alookup ctx.global "a" (.obj gA) ha]
      refine ⟨?_, ?_, ?_⟩
      · simp [shim_context_set_global_string, hiso, hsplit, hpath]
      · simp [shim_context_set_global_string, hiso, hsplit, hpath, assignSlot, clearSlot]
      · simp [shim_context_set_global_string, hiso, hsplit, hpath]
        rw [← hiso]

/-- Witness for `c6_set_global` with a string blocking the path at `a.b`. -/
theorem c6_witness :
    (shim_context_set_global_string
        (some ⟨some 0, [], [("a", .obj [("b", .str "x")])], []⟩)
        (some "a.b.c") (some "v") (some none)).status = false ∧
    (shim_context_set_global_string
        (some ⟨some 0, [], [("a", .obj [("b", .str "x")])], []⟩)
        (some "a.b.c") (some "v") (some none)).errSlot
      = some (some "property path conflicts with existing non-object value") ∧
    (shim_context_set_global_string
        (some ⟨some 0, [], [("a", .obj [("b", .str "x")])], []⟩)
        (some "a.b.c") (some "v") (some none)).ctx
      = some ⟨some 0, [], [("a", .obj [("b", .str "x")])], []⟩ :=
  (c6_set_global "v").2 ⟨some 0, [], [("a", .obj [("b", .str "x")])], []⟩ 0
    [("b", .str "x")] (.str "x") rfl rfl rfl
    (fun h => JSValue.noConfusion h) (fun h => JSValue.noConfusion h)
    (fun _ h => JSValue.noConfusion h) (fun _ _ h => JSValue.noConfusion h)

/-! Claim C7: exception capture format -/

theorem append_ne_empty_left (e rest : String) (he : e ≠ "") : e ++ rest ≠ "" := by
  intro h
  have hd : e.data ++ rest.data = [] := by
    have h' := congrArg String.data h
    rwa [String.data_append] at h'
  exact he (String.ext (List.append_eq_nil.mp hd).1)

theorem lineCount_append_line (e d : String) : 2 ≤ lineCount (e ++ "\n" ++ d) := by
  unfold lineCount
  rw [String.data_append, String.data_append]
  have hnl : ("\n" : String).data = ['\n'] := rfl
  rw [hnl]
  simp [List.count_append]
  omega

/-- C7: when an operation fails with a pending exception, the captured
message is the exception's own string form, with the engine's formatted
diagnostic appended as a second line when available — so the message
extends the exception text, is non-empty whenever that text is, and has at
least two lines when a diagnostic exists; when no exception was pending,
the message is the generic execution-failure string. -/
theorem c7_capture_exception (tc : TryCatch) :
    (tc.caught = false → capture_exception true tc = ("V8 execution failed", false)) ∧
    (∀ e, tc.caught = true → tc.exceptionText = some e →
      (tc.messageText = none → capture_exception true tc = (e, true)) ∧
      (∀ d, tc.messageText = some d → capture_exception true tc = (e ++ "\n" ++ d, true)) ∧
      (∃ suf, (capture_exception true tc).1 = e ++ suf) ∧
      (e ≠ "" → (capture_exception true tc).1 ≠ "") ∧
      (∀ d, tc.messageText = some d → 2 ≤ lineCount (capture_exception true tc).1)) := by
  obtain ⟨c, ex, msg⟩ := tc
  constructor
  · intro hc
    subst hc
    simp [capture_exception]
  · intro e hc he
    subst hc
    subst he
    rcases msg with _ | d
    · refine ⟨fun _ => by simp [capture_exception], fun d hd => by simp at hd, ⟨"", ?_⟩,
        fun hne => ?_, fun d hd => by simp at hd⟩
      · simp [capture_exception]
      · simp [capture_exception, hne]
    · refine ⟨fun h0 => by simp at h0, fun d' hd' => ?_, ⟨"\n" ++ d, ?_⟩,
        fun hne => ?_, fun d' hd' => ?_⟩
      · obtain rfl : d = d' := by injection hd'
        simp [capture_exception]
      · simp [capture_exception, String.append_assoc]
      · have hne' := append_ne_empty_left e ("\n" ++ d) hne
        simp only [capture_exception, Bool.not_true, if_true, if_false, Bool.false_eq_true,
          reduceIte]
        rw [String.append_assoc]
        exact hne'
      · obtain rfl : d = d' := by injection hd'
        simp only [capture_exception, Bool.not_true, if_true, if_false, Bool.false_eq_true,
          reduceIte]
        exact lineCount_append_line e d

/-- Witness for `c7_capture_exception` at a concrete thrown exception with
location diagnostics. -/
theorem c7_witness :
    capture_exception true ⟨true, some "boom", some "at line 1"⟩
      = ("boom" ++ "\n" ++ "at line 1", true) ∧
    2 ≤ lineCount (capture_exception true ⟨true, some "boom", some "at line 1"⟩).1 :=
  ⟨((c7_capture_exception ⟨true, some "boom", some "at line 1"⟩).2 "boom" rfl rfl).2.1
      "at line 1" rfl,
   ((c7_capture_exception ⟨true, some "boom", some "at line 1"⟩).2 "boom" rfl rfl).2.2.2.2
      "at line 1" rfl⟩

/-! Claim C8: cross-isolate run_script is rejected -/

/-- C8: running a valid script against a valid context owned by a
different isolate fails with the cross-isolate error, without attempting to
bind or execute the script and without modifying the context or its
cache. -/
theorem c8_cross_isolate (eng : Engine) (sw : ScriptWrapper) (ctx : ContextWrapper) (i : Nat)
    (rs es : Slot) (hunit : sw.hasUnit = true) (hiso : ctx.isolate = some i)
    (hdiff : sw.isolate ≠ some i) :
    (shim_script_run eng (some sw) (some ctx) rs es).status = false ∧
    (shim_script_run eng (some sw) (some ctx) rs es).ran = false ∧
    (shim_script_run eng (some sw) (some ctx) rs es).ctx = some ctx ∧
    (shim_script_run eng (some sw) (some ctx) rs es).resSlot = clearSlot rs ∧
    (shim_script_run eng (some sw) (some ctx) rs es).errSlot
      = assignSlot (clearSlot es) "script and context belong to different isolates" := by
  refine ⟨?_, ?_, ?_, ?_, ?_⟩ <;> simp [shim_script_run, hunit, hiso, hdiff]

/-- Witness for `c8_cross_isolate`: a script on isolate 1 run against a
context on isolate 0. -/
theorem c8_witness :
    (shim_script_run eng0 (some ⟨some 1, "s", true⟩) (some c0demo) none none).status = false ∧
    (shim_script_run eng0 (some ⟨some 1, "s", true⟩) (some c0demo) none none).ran = false ∧
    (shim_script_run eng0 (some ⟨some 1, "s", true⟩) (some c0demo) none none).ctx
      = some c0demo ∧
    (shim_script_run eng0 (some ⟨some 1, "s", true⟩) (some c0demo) none none).resSlot
      = clearSlot none ∧
    (shim_script_run eng0 (some ⟨some 1, "s", true⟩) (some c0demo) none none).errSlot
      = assignSlot (clearSlot none) "script and context belong to different isolates" :=
  c8_cross_isolate eng0 ⟨some 1, "s", true⟩ c0demo 0 none none rfl rfl (by decide)

/-! Claim C9: the legacy shim_eval wrapper -/

/-- C9: `shim_eval` returns exactly `shim_context_eval`'s result string on
success and its error string on failure, and a caller cannot tell the two
apart from the returned string alone — exhibited by a success and a failure
that return the identical string. -/
theorem c9_shim_eval (eng : Engine) (h : Option ContextWrapper) (src : Option String) :
    ((shim_context_eval eng h src (some none) (some none)).status = true →
      ∃ r, (shim_context_eval eng h src (some none) (some none)).resSlot = some (some r) ∧
        (shim_eval eng h src).1 = r) ∧
    ((shim_context_eval eng h src (some none) (some none)).status = false →
      ∃ m, (shim_context_eval eng h src (some none) (some none)).errSlot = some (some m) ∧
        (shim_eval eng h src).1 = m) ∧
    (∃ (eng₁ eng₂ : Engine) (c : ContextWrapper) (s : String),
      (shim_context_eval eng₁ (some c) (some s) (some none) (some none)).status = true ∧
      (shim_context_eval eng₂ (some c) (some s) (some none) (some none)).status = false ∧
      (shim_eval eng₁ (some c) (some s)).1 = (shim_eval eng₂ (some c) (some s)).1) := by
  refine ⟨?_, ?_, ?_⟩
  · intro hst
    obtain ⟨hes, v, hv⟩ := (eval_slots eng h src (some none) (some none)).2 hst
    refine ⟨v, by rw [hv]; rfl, ?_⟩
    simp [shim_eval, hst, hv, slotValue, assignSlot, clearSlot]
  · intro hst
    obtain ⟨hrs, m, hm⟩ := (eval_slots eng h src (some none) (some none)).1 hst
    refine ⟨m, by rw [hm]; rfl, ?_⟩
    simp [shim_eval, hst, hm, slotValue, assignSlot, clearSlot]
  · refine ⟨{ compile := fun _ => none, run := fun s => .ok s, call := fun _ _ => .ok "" },
      { compile := fun _ => some ⟨true, some "boom", none⟩, run := fun s => .ok s,
        call := fun _ _ => .ok "" },
      c0demo, "boom", rfl, rfl, rfl⟩

/-- Witness for `c9_shim_eval` on a successful eval. -/
theorem c9_witness :
    ∃ r, (shim_context_eval eng0 (some c0demo) (some "x") (some none) (some none)).resSlot
        = some (some r) ∧
      (shim_eval eng0 (some c0demo) (some "x")).1 = r :=
  (c9_shim_eval eng0 (some c0demo) (some "x")).1 rfl

/-! Claim C10: out-parameter discipline -/

/-- C10: every fallible operation with out-parameters first clears any
provided result and error slots, and on return exactly one side is
populated: on failure the result slot is still null and the error slot,
when provided, holds an error string; on success the error slot is still
null (and the result slot, when provided, holds the result). -/
theorem c10_out_params (eng : Engine) :
    (∀ (h : Option ContextWrapper) (src : Option String) (rs es : Slot),
      ((shim_context_eval eng h src rs es).status = false →
        (shim_context_eval eng h src rs es).resSlot = clearSlot rs ∧
        IsAssigned es (shim_context_eval eng h src rs es).errSlot) ∧
      ((shim_context_eval eng h src rs es).status = true →
        (shim_context_eval eng h src rs es).errSlot = clearSlot es ∧
        IsAssigned rs (shim_context_eval eng h src rs es).resSlot)) ∧
    (∀ (sh : Option ScriptWrapper) (ch : Option ContextWrapper) (rs es : Slot),
      ((shim_script_run eng sh ch rs es).status = false →
        (shim_script_run eng sh ch rs es).resSlot = clearSlot rs ∧
        IsAssigned es (shim_script_run eng sh ch rs es).errSlot) ∧
      ((shim_script_run eng sh ch rs es).status = true →
        (shim_script_run eng sh ch rs es).errSlot = clearSlot es ∧
        IsAssigned rs (shim_script_run eng sh ch rs es).resSlot)) ∧
    (∀ (h : Option ContextWrapper) (fn : Option String) (args : List (Option String))
        (rs es : Slot),
      ((shim_context_call_function eng h fn args rs es).status = false →
        (shim_context_call_function eng h fn args rs es).resSlot = clearSlot rs ∧
        IsAssigned es (shim_context_call_function eng h fn args rs es).errSlot) ∧
      ((shim_context_call_function eng h fn args rs es).status = true →
        (shim_context_call_function eng h fn args rs es).errSlot = clearSlot es ∧
        IsAssigned rs (shim_context_call_function eng h fn args rs es).resSlot)) ∧
    (∀ (iso : Option IsolateW) (src : Option String) (es : Slot),
      ((shim_compile_script eng iso src es).script = none →
        IsAssigned es (shim_compile_script eng iso src es).errSlot) ∧
      (∀ sw, (shim_compile_script eng iso src es).script = some sw →
        (shim_compile_script eng iso src es).errSlot = clearSlot es)) :=
  ⟨fun h src rs es => eval_slots eng h src rs es,
   fun sh ch rs es => run_slots eng sh ch rs es,
   fun h fn args rs es => call_slots eng h fn args rs es,
   fun iso src es => compile_slots eng iso src es⟩

/-- Witness for `c10_out_params`: a failing eval (null handle) clears a
dirty result slot and populates the error slot. -/
theorem c10_witness :
    (shim_context_eval eng0 none none (some (some "junk")) (some (some "junk"))).resSlot
      = some none ∧
    IsAssigned (some (some "junk"))
      (shim_context_eval eng0 none none (some (some "junk")) (some (some "junk"))).errSlot :=
  ((c10_out_params eng0).1 none none (some (some "junk")) (some (some "junk"))).1 rfl

end PacmV8
